import Mathlib

/-!
# GoRODS: the connection and handle-cache core (`connection.go`)

A shallow embedding of `src/connection.go` and theorems about it.

Conventions of the embedding

* A Go `string` is a Lean `String`; the byte test `path[len(path)-1] == '/'` is the test that the
  last character is `/` (the byte `0x2F` only ever encodes the character `/` in UTF-8).
* A Go run-time panic is the `error` side of `Except Panic _`; a function that cannot panic has a
  plain result type.
* A Go `(value, error)` result is `Except GoError value`.
* A `nil` interface value or `nil` pointer result is `none`.
* Handles are compared by value: the embedding has no pointer identity.
* The collaborators reached through cgo (`gorods_connect`, `gorods_connect_env`) and the
  function `getCollection` (defined outside `connection.go`) are parameters.
-/

set_option autoImplicit false

namespace GoRODS

/-! ## Constants (connection.go, lines 23-35) -/

/-- Value of `EnvironmentDefined` (first `iota` of the block at line 23). -/
def EnvironmentDefined : Int := 0

/-- Value of `UserDefined`. -/
def UserDefined : Int := 1

/-- Value of `DataObjType` (first `iota` of the block at line 29). -/
def DataObjType : Int := 0

/-- Value of `CollectionType`. -/
def CollectionType : Int := 1

/-- Value of `ResourceType`. -/
def ResourceType : Int := 2

/-- Value of `ResourceGroupType`. -/
def ResourceGroupType : Int := 3

/-- Value of `UserType`. -/
def UserType : Int := 4

/-! ## Errors and panics -/

/-- Modelled from the spec: the error kinds. The file that declares `newError` and `Fatal` is not
part of `src/`; `connection.go` only ever builds errors of kind `Fatal`. The other tags are the
taxonomy of spec section 4.2 together with `InvalidConfig` of section 4.4. -/
inductive ErrorKind where
  | Fatal
  | InvalidConfig
  | AuthFailed
  | SessionClosed
  | NotFound
  | KindMismatch
  | InvalidPath
  | GatewayError
  deriving DecidableEq

/-- The value built by `newError(kind, message)`. -/
structure GoError where
  kind : ErrorKind
  msg : String
  deriving DecidableEq

/-- The Go-level `newError`. -/
def newError (kind : ErrorKind) (msg : String) : GoError := ⟨kind, msg⟩

/-- The ways a call can end abruptly. -/
inductive Panic where
  /-- Go run-time error: index out of range (`path[len(path)-1]` on an empty string) -/
  | indexOutOfRange
  /-- Go run-time error: failed type assertion `x.(*Collection)` -/
  | typeAssertion
  /-- An explicit `panic(newError(...))` -/
  | raised (e : GoError)
  deriving DecidableEq

/-! ## getTypeString (lines 37-50) -/

/-- The function `getTypeString`: a `switch` over the kind constant whose `default` branch
panics. -/
def getTypeString (t : Int) : Except Panic String :=
  if t = DataObjType then .ok "d"
  else if t = CollectionType then .ok "C"
  else if t = ResourceType then .ok "R"
  else if t = UserType then .ok "u"
  else .error (.raised (newError .Fatal "unrecognized meta type constant"))

/-! ## Catalog objects (the interface `IRodsObj`, lines 52-70) -/

/-- The kinds of object other than collections. -/
inductive OtherKind where
  | dataObj
  | resource
  | resourceGroup
  | user
  deriving DecidableEq

/-- Modelled from the spec: the values of the interface `IRodsObj`. The concrete types behind the
interface (`Collection`, `DataObj`, ...) are declared outside `connection.go`. Following spec
section 3, an object is a tagged variant whose kind comes from the closed set of five kinds, and
the objects of kind Collection are exactly the `*Collection` values, so that the type assertion
`obj.(*Collection)` guarded by `obj.GetType() == CollectionType` (line 117) always succeeds.

A collection carries what `FindRecursive` reads from it:
* `recursive` is the result of `IsRecursive()`;
* `dataObjects` is the field `DataObjects` (the loaded children);
* `collections` is the result of the call `GetCollections()`: `some obs` when it returns
  `(obs, nil)`, `none` when it returns a non-nil error. The method body is not in
  `connection.go`, so its result is left arbitrary. -/
inductive IRodsObj where
  | collection (name path : String) (recursive : Bool)
      (dataObjects : List IRodsObj) (collections : Option (List IRodsObj))
  | other (kind : OtherKind) (name path : String)

/-- The type `IRodsObjs` (line 70): a slice of objects. -/
abbrev IRodsObjs := List IRodsObj

/-- The kind constant of a non-collection object. -/
def OtherKind.code : OtherKind → Int
  | .dataObj => DataObjType
  | .resource => ResourceType
  | .resourceGroup => ResourceGroupType
  | .user => UserType

/-- The method `GetType()`. -/
def IRodsObj.GetType : IRodsObj → Int
  | .collection .. => CollectionType
  | .other k _ _ => k.code

/-- The method `GetName()`. -/
def IRodsObj.GetName : IRodsObj → String
  | .collection n _ _ _ _ => n
  | .other _ n _ => n

/-- The method `GetPath()`. -/
def IRodsObj.GetPath : IRodsObj → String
  | .collection _ p _ _ _ => p
  | .other _ _ p => p

/-- The method `IsRecursive()` of a collection (`false` on the other kinds, which do not have
it). -/
def IRodsObj.IsRecursive : IRodsObj → Bool
  | .collection _ _ r _ _ => r
  | .other .. => false

/-- The result of the call `GetCollections()` on a collection: `some obs` for `(obs, nil)`, `none`
for a non-nil error (and on the other kinds, which do not have the method). -/
def IRodsObj.GetCollections : IRodsObj → Option (List IRodsObj)
  | .collection _ _ _ _ cs => cs
  | .other .. => none

/-! ## Find, Exists, FindRecursive (lines 72-147) -/

/-- Lines 86-89 and 104-107: `if path[len(path)-1] == '/' { path = path[:len(path)-1] }`.
Indexing an empty string panics. -/
def stripTrailingSlash (path : String) : Except Panic String :=
  match path.data.getLast? with
  | none => .error .indexOutOfRange
  | some c => if c = '/' then .ok ⟨path.data.dropLast⟩ else .ok path

/-- The loop condition of lines 92 and 110:
`obj.GetPath() == path || obj.GetName() == path`. -/
def directMatch (path : String) (obj : IRodsObj) : Bool :=
  obj.GetPath == path || obj.GetName == path

/-- The selection `o.GetType() == CollectionType` of lines 115 and 132. -/
def isCollection (o : IRodsObj) : Bool :=
  decide (o.GetType = CollectionType)

/-- The loop of `Find` (lines 91-97) over the already stripped path. -/
def findLoop (path : String) : List IRodsObj → Option IRodsObj
  | [] => none
  | obj :: rest => if directMatch path obj then some obj else findLoop path rest

/-- The method `IRodsObjs.Find` (lines 84-98). -/
def IRodsObjs.Find (objs : IRodsObjs) (path : String) : Except Panic (Option IRodsObj) :=
  match stripTrailingSlash path with
  | .error e => .error e
  | .ok path => .ok (findLoop path objs)

/-- The method `IRodsObjs.Exists` (lines 74-80). -/
def IRodsObjs.Exists (objs : IRodsObjs) (path : String) : Except Panic Bool :=
  match IRodsObjs.Find objs path with
  | .error e => .error e
  | .ok (some _) => .ok true
  | .ok none => .ok false

mutual
/-- The method `IRodsObjs.FindRecursive` (lines 102-147): strip the trailing slash, then run the
loop. Every nested call (lines 122 and 137) re-enters here with the already stripped path, and
so strips once more. -/
def IRodsObjs.FindRecursive (objs : IRodsObjs) (path : String) :
    Except Panic (Option IRodsObj) :=
  match stripTrailingSlash path with
  | .error e => .error e
  | .ok path => findRecLoop path objs
termination_by (sizeOf objs, 1)
/-- The loop of lines 109-144. -/
def findRecLoop (path : String) (objs : List IRodsObj) : Except Panic (Option IRodsObj) :=
  match objs with
  | [] => .ok none
  | obj :: rest =>
    if directMatch path obj then .ok (some obj)
    else
      match descend path obj with
      | .error e => .error e
      | .ok (some subCol) => .ok (some subCol)
      | .ok none => findRecLoop path rest
termination_by (sizeOf objs, 0)
/-- The block of lines 115-142, run on an element that did not match directly: `some subCol`
when the block returns `subCol`, `none` when control falls through to the next iteration. -/
def descend (path : String) (obj : IRodsObj) : Except Panic (Option IRodsObj) :=
  match obj with
  | .collection _ _ true _ (some obs) => IRodsObjs.FindRecursive obs path
  | .collection _ _ true _ none => .ok none
  | .collection _ _ false ds _ => IRodsObjs.FindRecursive (ds.filter isCollection) path
  | .other .. => .ok none
termination_by (sizeOf obj, 0)
decreasing_by
  all_goals simp_wf
  · apply Prod.Lex.left
    omega
  · apply Prod.Lex.left
    have h : sizeOf (ds.filter isCollection) ≤ sizeOf ds := by
      induction ds with
      | nil => simp
      | cons a t ih =>
        simp only [List.filter]
        split
        · simp; omega
        · simp; omega
    omega
end

/-! ## Connections (lines 150-273) -/

/-- The struct `ConnectionOptions` (lines 151-160); the field `Type` is spelled `Type_`. -/
structure ConnectionOptions where
  Type_ : Int
  Host : String
  Port : Int
  Zone : String
  Username : String
  Password : String

/-- A `*Collection` value: the collection variant of `IRodsObj` as a record. -/
structure Collection where
  name : String
  path : String
  recursive : Bool
  dataObjects : List IRodsObj
  collections : Option (List IRodsObj)

/-- A `*Collection` seen through the interface `IRodsObj`. -/
def Collection.toObj (c : Collection) : IRodsObj :=
  .collection c.name c.path c.recursive c.dataObjects c.collections

/-- The type assertion `x.(*Collection)`: `none` stands for the run-time panic. -/
def asCollection : IRodsObj → Option Collection
  | .collection n p r ds cs => some ⟨n, p, r, ds, cs⟩
  | .other .. => none

/-- The struct `Connection` (lines 162-168); `ccon` is the transport's endpoint handle. -/
structure Connection where
  ccon : Nat
  Connected : Bool
  Options : ConnectionOptions
  OpenedObjs : IRodsObjs

/-- What one transport call hands back: the returned status, the endpoint written through
`&con.ccon` and the message written through `&errMsg`. -/
structure ConnectResult where
  status : Int
  ccon : Nat
  errMsg : String

/-- The two cgo entry points used by `New`. A `nil` password pointer is `none`. -/
structure Transport where
  /-- The C function `gorods_connect_env(&ccon, host, port, username, zone, password, &errMsg)` -/
  connectEnv : String → Int → String → String → Option String → ConnectResult
  /-- The C function `gorods_connect(&ccon, password, &errMsg)` -/
  connect : Option String → ConnectResult

/-- The conversion `C.int(n)`: wrap into the signed 32-bit range. -/
def toCInt (n : Int) : Int :=
  (n + 2 ^ 31) % 2 ^ 32 - 2 ^ 31

/-- The function `New` (lines 176-218). -/
def New (t : Transport) (opts : ConnectionOptions) : Except GoError Connection :=
  let password : Option String := if opts.Password ≠ "" then some opts.Password else none
  let r : ConnectResult :=
    if opts.Type_ = UserDefined then
      t.connectEnv opts.Host (toCInt opts.Port) opts.Username opts.Zone password
    else
      t.connect password
  if r.status = 0 then
    .ok { ccon := r.ccon, Connected := true, Options := opts, OpenedObjs := [] }
  else
    .error (newError .Fatal ("iRods Connect Failed: " ++ r.errMsg))

/-- The collaborator `getCollection(startPath, recursive, con)`, defined outside
`connection.go`. -/
abbrev GetCollection := String → Bool → Connection → Except GoError Collection

/-- What a call of `Connection.Collection` leaves behind: the returned pair, the connection
afterwards, and the list of `getCollection` calls made, in order (an observation added by the
embedding to count gateway fetches). -/
structure CollectionOutcome where
  ret : Except GoError Collection
  con : Connection
  fetches : List (String × Bool)

/-- The method `Connection.Collection` (lines 257-273). -/
def Connection.Collection (getCollection : GetCollection) (con : Connection)
    (startPath : String) (recursive : Bool) : Except Panic CollectionOutcome :=
  match IRodsObjs.FindRecursive con.OpenedObjs startPath with
  | .error e => .error e
  | .ok none =>
    match getCollection startPath recursive con with
    | .ok col =>
      .ok { ret := .ok col
            con := { con with OpenedObjs := con.OpenedObjs ++ [col.toObj] }
            fetches := [(startPath, recursive)] }
    | .error err =>
      .ok { ret := .error err, con := con, fetches := [(startPath, recursive)] }
  | .ok (some collection) =>
    match asCollection collection with
    | none => .error .typeAssertion
    | some col => .ok { ret := .ok col, con := con, fetches := [] }

/-! ## Vocabulary of the statements -/

/-- The relation between a path `p` and `p` with one trailing `/` removed if present, stated
without reference to the code: either `p` is `q` followed by `/`, or `p` does not end in `/`
and `q` is `p`. -/
def StrippedOnce (p q : String) : Prop :=
  p.data = q.data ++ ['/'] ∨ (q = p ∧ ∀ l : List Char, p.data ≠ l ++ ['/'])

/-- The sequence that the search of one element looks into (lines 119-139): what a successful
`GetCollections()` returns for a recursive collection, the `DataObjects` of kind Collection for a
non-recursive collection; `none` when nothing is looked into (the element is not a collection, or
`GetCollections()` failed). -/
def searchedBelow : IRodsObj → Option (List IRodsObj)
  | .collection _ _ true _ cs => cs
  | .collection _ _ false ds _ => some (ds.filter isCollection)
  | .other .. => none

/-- One step down from a collection: from a recursive collection to an object that its
successful `GetCollections()` call returns, from a non-recursive collection to one of its
`DataObjects` of kind Collection. -/
inductive DescentLink : IRodsObj → IRodsObj → Prop where
  | collections (n pa : String) (ds obs : List IRodsObj) (s : IRodsObj) :
      s ∈ obs → DescentLink (.collection n pa true ds (some obs)) s
  | dataObjects (n pa : String) (ds : List IRodsObj) (cs : Option (List IRodsObj))
      (s : IRodsObj) :
      s ∈ ds → s.GetType = CollectionType → DescentLink (.collection n pa false ds cs) s

/-- The object `d` is loaded below the collection `c`: it is reached from `c` by one or more
steps down. -/
inductive LoadedUnder : IRodsObj → IRodsObj → Prop where
  | child (c d : IRodsObj) : DescentLink c d → LoadedUnder c d
  | deeper (c s d : IRodsObj) : DescentLink c s → LoadedUnder s d → LoadedUnder c d

/-- The object offers `FindRecursive` nothing to descend into: it is not a collection, or it is
a non-recursive collection without a collection among its loaded children, or a recursive
collection whose `GetCollections()` fails or returns nothing. -/
def nothingBelow : IRodsObj → Bool
  | .collection _ _ true _ (some obs) => obs.isEmpty
  | .collection _ _ true _ none => true
  | .collection _ _ false ds _ => (ds.filter isCollection).isEmpty
  | .other .. => true

/-- The field `DataObjects` of a collection (empty for the other kinds). -/
def IRodsObj.children : IRodsObj → List IRodsObj
  | .collection _ _ _ ds _ => ds
  | .other .. => []

/-! ## Example objects -/

/-- A collection `/tempZone/home/alice/docs`, loaded recursively, with nothing inside. -/
def docsCol : IRodsObj :=
  .collection "docs" "/tempZone/home/alice/docs" true [] (some [])

/-- A recursively loaded `/tempZone/home/alice` holding `docsCol`. -/
def aliceRec : IRodsObj :=
  .collection "alice" "/tempZone/home/alice" true [docsCol] (some [docsCol])

/-- A recursively loaded `/tempZone/home` holding `aliceRec`. -/
def homeRec : IRodsObj :=
  .collection "home" "/tempZone/home" true [aliceRec] (some [aliceRec])

/-- A placeholder for `/tempZone/home/alice`: not recursive, children not loaded. -/
def alicePlaceholder : IRodsObj :=
  .collection "alice" "/tempZone/home/alice" false [] (some [])

/-- A non-recursively loaded `/tempZone/home`: its child is a placeholder. -/
def homeShallow : IRodsObj :=
  .collection "home" "/tempZone/home" false [alicePlaceholder] (some [alicePlaceholder])

/-- A data object `/tempZone/home/notes.txt`. -/
def notesTop : IRodsObj :=
  .other .dataObj "notes.txt" "/tempZone/home/notes.txt"

/-- A recursively loaded `/tempZone/home` with two children, the recursive collection `aliceRec`
and the data object `notesTop`; its `GetCollections()` returns the children that are
collections. -/
def homeRecNotes : IRodsObj :=
  .collection "home" "/tempZone/home" true [aliceRec, notesTop] (some [aliceRec])

/-- A non-recursive `/tempZone/projects` whose child `docsCol` is a collection. -/
def projectsShallow : IRodsObj :=
  .collection "projects" "/tempZone/projects" false [docsCol, notesTop] none

/-- A recursively loaded `/tempZone` whose `GetCollections()` returns `projectsShallow`. -/
def zoneRec : IRodsObj :=
  .collection "tempZone" "/tempZone" true [projectsShallow] (some [projectsShallow])

/-- A non-recursive `/tempZone/home/alice/docs` without loaded children. -/
def docsLeaf : IRodsObj :=
  .collection "docs" "/tempZone/home/alice/docs" false [] (some [])

/-- A non-recursive `/tempZone/home/alice` whose child `docsLeaf` is loaded. -/
def aliceOpened : IRodsObj :=
  .collection "alice" "/tempZone/home/alice" false [docsLeaf] (some [docsLeaf])

/-- A non-recursive `/tempZone/home` whose child is `aliceOpened`. -/
def homeOpened : IRodsObj :=
  .collection "home" "/tempZone/home" false [aliceOpened] (some [aliceOpened])

/-- A collection `/tempZone/home/docs`. -/
def homeDocs : IRodsObj :=
  .collection "docs" "/tempZone/home/docs" false [] (some [])

/-- A non-recursive `/tempZone/home` holding `homeDocs`. -/
def homeWithDocs : IRodsObj :=
  .collection "home" "/tempZone/home" false [homeDocs] (some [homeDocs])

/-- A collection `/tempZone/projects/docs`, with the same name as `homeDocs`. -/
def projectDocs : IRodsObj :=
  .collection "docs" "/tempZone/projects/docs" false [] (some [])

/-- Options of a user-defined connection with every field given. -/
def fullOpts : ConnectionOptions :=
  { Type_ := UserDefined, Host := "h", Port := 1247, Zone := "z", Username := "u",
    Password := "pw" }

/-- Options of spec scenario 1: user-defined, port missing (zero value), no password. -/
def missingPortOpts : ConnectionOptions :=
  { Type_ := UserDefined, Host := "h", Port := 0, Zone := "z", Username := "u", Password := "" }

/-- A transport that accepts every connection attempt (status 0, endpoint 1). -/
def acceptAll : Transport :=
  { connectEnv := fun _ _ _ _ _ => ⟨0, 1, ""⟩, connect := fun _ => ⟨0, 1, ""⟩ }

/-- A transport that rejects every connection attempt with status -1. -/
def rejectAll : Transport :=
  { connectEnv := fun _ _ _ _ _ => ⟨-1, 0, "no route"⟩, connect := fun _ => ⟨-1, 0, "no route"⟩ }

/-- A connection whose cache holds the recursive `/tempZone/home` (spec scenario 3). -/
def conRec : Connection :=
  { ccon := 1, Connected := true, Options := fullOpts, OpenedObjs := [homeRec] }

/-- A connection whose cache holds the non-recursive `/tempZone/home` (spec scenario 4). -/
def conShallow : Connection :=
  { ccon := 1, Connected := true, Options := fullOpts, OpenedObjs := [homeShallow] }

/-- The `*Collection` the gateway returns for `/tempZone/home/alice/docs`. -/
def docsFetched : Collection :=
  { name := "docs", path := "/tempZone/home/alice/docs", recursive := false, dataObjects := [],
    collections := some [] }

/-- A gateway that knows `/tempZone/home/alice/docs` and nothing else. -/
def gatewayDocs : GetCollection := fun p _ _ =>
  if p = "/tempZone/home/alice/docs" then .ok docsFetched else .error (newError .NotFound p)

/-- A gateway that fails on every request. -/
def gatewayDown : GetCollection := fun _ _ _ => .error (newError .GatewayError "down")

/-- A cached, non-recursively loaded collection `/tempZone` without loaded children. -/
def tempZoneCol : IRodsObj :=
  .collection "tempZone" "/tempZone" false [] (some [])

/-- The root collection `/`; its name is the (empty) final path segment. -/
def rootCol : IRodsObj :=
  .collection "" "/" false [] (some [])

/-- A data object whose path is `/` and whose name is not empty. -/
def slashObj : IRodsObj :=
  .other .dataObj "root" "/"

/-! ## Basic facts -/

theorem directMatch_iff (p : String) (x : IRodsObj) :
    directMatch p x = true ↔ (x.GetPath = p ∨ x.GetName = p) := by
  simp [directMatch]

theorem directMatch_eq_false_iff (p : String) (x : IRodsObj) :
    directMatch p x = false ↔ ¬ (x.GetPath = p ∨ x.GetName = p) := by
  rw [← directMatch_iff]
  simp

theorem data_ne_nil_of_ne_empty (p : String) (h : p ≠ "") : p.data ≠ [] := by
  intro hd
  apply h
  cases p with
  | mk d =>
    simp only at hd
    subst hd
    rfl

theorem stripTrailingSlash_empty : stripTrailingSlash "" = .error .indexOutOfRange := rfl

/-- On a non-empty path the strip succeeds and removes exactly one trailing `/` if present. -/
theorem stripTrailingSlash_ok (p : String) (h : p ≠ "") :
    ∃ q, stripTrailingSlash p = .ok q ∧ StrippedOnce p q := by
  have hd := data_ne_nil_of_ne_empty p h
  rcases List.eq_nil_or_concat p.data with hnil | ⟨l, c, hl⟩
  · exact absurd hnil hd
  · rw [List.concat_eq_append] at hl
    by_cases hc : c = '/'
    · refine ⟨⟨l⟩, ?_, ?_⟩
      · simp [stripTrailingSlash, hl, hc]
      · left
        simp [hl, hc]
    · refine ⟨p, ?_, ?_⟩
      · simp [stripTrailingSlash, hl, hc]
      · right
        refine ⟨rfl, ?_⟩
        intro l' hl'
        rw [hl] at hl'
        have := List.append_inj_right' hl' rfl
        simp at this
        exact hc this

/-- A path whose last character is not `/` is left alone by the strip. -/
theorem stripTrailingSlash_id (p : String) (c : Char) (hlast : p.data.getLast? = some c)
    (hc : c ≠ '/') : stripTrailingSlash p = .ok p := by
  simp [stripTrailingSlash, hlast, hc]

theorem findLoop_none_iff (p : String) (objs : List IRodsObj) :
    findLoop p objs = none ↔ ∀ x ∈ objs, directMatch p x = false := by
  induction objs with
  | nil => simp [findLoop]
  | cons a t ih =>
    by_cases ha : directMatch p a = true
    · simp [findLoop, ha]
    · simp [findLoop, ha, ih]

theorem findLoop_some (p : String) (objs : List IRodsObj) (o : IRodsObj)
    (h : findLoop p objs = some o) :
    ∃ pre post, objs = pre ++ o :: post ∧ (∀ x ∈ pre, directMatch p x = false) ∧
      directMatch p o = true := by
  induction objs with
  | nil => simp [findLoop] at h
  | cons a t ih =>
    by_cases ha : directMatch p a = true
    · simp [findLoop, ha] at h
      subst h
      exact ⟨[], t, rfl, by simp, ha⟩
    · simp [findLoop, ha] at h
      obtain ⟨pre, post, h1, h2, h3⟩ := ih h
      refine ⟨a :: pre, post, by simp [h1], ?_, h3⟩
      intro x hx
      rcases List.mem_cons.mp hx with rfl | hx
      · simpa using ha
      · exact h2 x hx

/-! ## Claims -/

/-- Claim C1. For every sequence `objs` and non-empty path `p`, with `q` the path `p` with one
trailing `/` removed if present: `Find` returns normally; it returns nil exactly when no element
has path `q` or name `q`; and a returned element is the first element of `objs` (no element
before it matches) whose path or name equals `q`. -/
theorem Find_returns_first_match (objs : IRodsObjs) (p : String) (hp : p ≠ "") :
    ∃ q r, StrippedOnce p q ∧ IRodsObjs.Find objs p = .ok r ∧
      (r = none ↔ ∀ x ∈ objs, ¬ (x.GetPath = q ∨ x.GetName = q)) ∧
      (∀ o, r = some o → ∃ pre post, objs = pre ++ o :: post ∧
        (∀ x ∈ pre, ¬ (x.GetPath = q ∨ x.GetName = q)) ∧ (o.GetPath = q ∨ o.GetName = q)) := by
  obtain ⟨q, hq, hs⟩ := stripTrailingSlash_ok p hp
  refine ⟨q, findLoop q objs, hs, ?_, ?_, ?_⟩
  · simp [IRodsObjs.Find, hq]
  · rw [findLoop_none_iff]
    simp only [directMatch_eq_false_iff]
  · intro o ho
    obtain ⟨pre, post, h1, h2, h3⟩ := findLoop_some q objs o ho
    refine ⟨pre, post, h1, ?_, (directMatch_iff q o).mp h3⟩
    intro x hx
    exact (directMatch_eq_false_iff q x).mp (h2 x hx)

/-- Witness for C1: a lookup by name with a trailing slash in a two-element sequence. -/
theorem Find_returns_first_match_witness :
    ∃ q r, StrippedOnce "tempZone/" q ∧
      IRodsObjs.Find [slashObj, tempZoneCol] "tempZone/" = .ok r ∧
      (r = none ↔ ∀ x ∈ [slashObj, tempZoneCol], ¬ (x.GetPath = q ∨ x.GetName = q)) ∧
      (∀ o, r = some o → ∃ pre post, [slashObj, tempZoneCol] = pre ++ o :: post ∧
        (∀ x ∈ pre, ¬ (x.GetPath = q ∨ x.GetName = q)) ∧ (o.GetPath = q ∨ o.GetName = q)) :=
  Find_returns_first_match [slashObj, tempZoneCol] "tempZone/" (by decide)

/-- Claim C5. `getTypeString` maps `DataObjType`, `CollectionType`, `ResourceType`, `UserType` to
"d", "C", "R", "u"; on `ResourceGroupType` and on every integer outside the five constants it
panics with the Fatal error; it returns a string exactly on the four mapped constants. -/
theorem getTypeString_spec :
    getTypeString DataObjType = .ok "d" ∧
    getTypeString CollectionType = .ok "C" ∧
    getTypeString ResourceType = .ok "R" ∧
    getTypeString UserType = .ok "u" ∧
    getTypeString ResourceGroupType =
      .error (.raised (newError .Fatal "unrecognized meta type constant")) ∧
    (∀ t : Int, t ∉ [DataObjType, CollectionType, ResourceType, ResourceGroupType, UserType] →
      getTypeString t = .error (.raised (newError .Fatal "unrecognized meta type constant"))) ∧
    (∀ t : Int, (∃ s, getTypeString t = .ok s) ↔
      t ∈ [DataObjType, CollectionType, ResourceType, UserType]) := by
  refine ⟨rfl, rfl, rfl, rfl, rfl, ?_, ?_⟩
  · intro t ht
    simp only [List.mem_cons, List.mem_singleton, List.not_mem_nil, or_false, not_or] at ht
    obtain ⟨h0, h1, h2, _, h4⟩ := ht
    simp [getTypeString, h0, h1, h2, h4]
  · intro t
    simp only [List.mem_cons, List.mem_singleton, List.not_mem_nil, or_false]
    constructor
    · rintro ⟨s, hs⟩
      unfold getTypeString at hs
      split_ifs at hs with h0 h1 h2 h4
      · exact Or.inl h0
      · exact Or.inr (Or.inl h1)
      · exact Or.inr (Or.inr (Or.inl h2))
      · exact Or.inr (Or.inr (Or.inr h4))
    · rintro (h | h | h | h) <;> subst h
      · exact ⟨"d", rfl⟩
      · exact ⟨"C", rfl⟩
      · exact ⟨"R", rfl⟩
      · exact ⟨"u", rfl⟩

/-- Witness for C5: the integer 7 is none of the five constants and makes `getTypeString`
panic. -/
theorem getTypeString_spec_witness :
    getTypeString 7 = .error (.raised (newError .Fatal "unrecognized meta type constant")) :=
  getTypeString_spec.2.2.2.2.2.1 7 (by decide)

/-- Claim C6 (evaluation at the failing input). On the empty sequence and the empty path, `Find`,
`FindRecursive` and `Exists` all end in the index-out-of-range panic of `path[len(path)-1]`
instead of reporting "not found". -/
theorem empty_path_panics :
    IRodsObjs.Find [] "" = .error .indexOutOfRange ∧
    IRodsObjs.FindRecursive [] "" = .error .indexOutOfRange ∧
    IRodsObjs.Exists [] "" = .error .indexOutOfRange := by
  refine ⟨rfl, ?_, rfl⟩
  rw [IRodsObjs.FindRecursive, stripTrailingSlash_empty]

/-- Claim C7 (evaluation at the failing inputs). The strip turns the root path `/` into the empty
string. With the cache holding `/tempZone` and then the root, `FindRecursive("/")` descends into
`/tempZone` with the empty path and ends in the index-out-of-range panic; and `Find("/")` on a
sequence whose only element has path `/` and a non-empty name returns nil. -/
theorem root_lookup_uses_empty_path :
    stripTrailingSlash "/" = .ok "" ∧
    IRodsObjs.FindRecursive [tempZoneCol, rootCol] "/" = .error .indexOutOfRange ∧
    IRodsObjs.Find [slashObj] "/" = .ok none := by
  refine ⟨rfl, ?_, rfl⟩
  simp [IRodsObjs.FindRecursive, findRecLoop, descend, stripTrailingSlash, tempZoneCol,
    directMatch, IRodsObj.GetPath, IRodsObj.GetName]

/-- Claim C2. If `FindRecursive` on the cache finds a handle of kind Collection, then
`Collection(p, recursive)` returns exactly that handle with a nil error, makes no gateway fetch
and leaves the connection (its `OpenedObjs` included) as it was, whatever `recursive` is. -/
theorem Collection_cache_hit (getCollection : GetCollection) (con : Connection) (p : String)
    (recursive : Bool) (o : IRodsObj)
    (hfound : IRodsObjs.FindRecursive con.OpenedObjs p = .ok (some o))
    (hkind : o.GetType = CollectionType) :
    ∃ c : Collection, c.toObj = o ∧
      Connection.Collection getCollection con p recursive =
        .ok { ret := .ok c, con := con, fetches := [] } := by
  cases o with
  | collection n pa r ds cs =>
    refine ⟨⟨n, pa, r, ds, cs⟩, rfl, ?_⟩
    simp [Connection.Collection, hfound, asCollection]
  | other k n pa =>
    cases k <;> simp [IRodsObj.GetType, OtherKind.code, CollectionType, DataObjType,
      ResourceType, ResourceGroupType, UserType] at hkind

/-- Witness for C2 (spec scenario 3): the cache holds the recursive `/tempZone/home`; asking for
`/tempZone/home/alice/docs` returns the cached handle without a fetch. -/
theorem Collection_cache_hit_witness :
    ∃ c : Collection, c.toObj = docsCol ∧
      Connection.Collection gatewayDown conRec "/tempZone/home/alice/docs" false =
        .ok { ret := .ok c, con := conRec, fetches := [] } :=
  Collection_cache_hit gatewayDown conRec "/tempZone/home/alice/docs" false docsCol
    (by
      have h1 : stripTrailingSlash "/tempZone/home/alice/docs" =
          .ok "/tempZone/home/alice/docs" := rfl
      simp [conRec, homeRec, aliceRec, docsCol, IRodsObjs.FindRecursive, findRecLoop, descend,
        h1, directMatch, IRodsObj.GetPath, IRodsObj.GetName])
    rfl

/-- Claim C3. On a cache miss `Collection(p, recursive)` makes exactly one gateway fetch
`getCollection(p, recursive, con)`; if the fetch succeeds with `c`, the call returns `c` and
`OpenedObjs` becomes the previous sequence with `c` appended last; if it fails with `e`, the call
returns `e` unchanged, no collection, and the connection is unchanged. -/
theorem Collection_cache_miss (getCollection : GetCollection) (con : Connection) (p : String)
    (recursive : Bool) (hmiss : IRodsObjs.FindRecursive con.OpenedObjs p = .ok none) :
    (∀ c, getCollection p recursive con = .ok c →
      Connection.Collection getCollection con p recursive =
        .ok { ret := .ok c
              con := { con with OpenedObjs := con.OpenedObjs ++ [c.toObj] }
              fetches := [(p, recursive)] }) ∧
    (∀ e, getCollection p recursive con = .error e →
      Connection.Collection getCollection con p recursive =
        .ok { ret := .error e, con := con, fetches := [(p, recursive)] }) := by
  constructor
  · intro c hc
    simp [Connection.Collection, hmiss, hc]
  · intro e he
    simp [Connection.Collection, hmiss, he]

/-- Witness for C3 (spec scenario 4): the cache holds only the non-recursive `/tempZone/home`;
asking for `/tempZone/home/alice/docs` misses, fetches once and appends the result. -/
theorem Collection_cache_miss_witness :
    Connection.Collection gatewayDocs conShallow "/tempZone/home/alice/docs" false =
      .ok { ret := .ok docsFetched
            con := { conShallow with OpenedObjs := [homeShallow, docsFetched.toObj] }
            fetches := [("/tempZone/home/alice/docs", false)] } :=
  (Collection_cache_miss gatewayDocs conShallow "/tempZone/home/alice/docs" false
    (by
      have h1 : stripTrailingSlash "/tempZone/home/alice/docs" =
          .ok "/tempZone/home/alice/docs" := rfl
      simp [conShallow, homeShallow, alicePlaceholder, IRodsObjs.FindRecursive, findRecLoop,
        descend, h1, directMatch, IRodsObj.GetPath, IRodsObj.GetName, isCollection,
        IRodsObj.GetType])).1 docsFetched rfl

/-- Claim C8, refuted as stated: with `Type == UserDefined` and the port missing, `New` returns a
connected `Connection` when the transport reports status 0, and no `InvalidConfig` error. -/
theorem New_missing_port_connects :
    missingPortOpts.Type_ = UserDefined ∧ missingPortOpts.Port = 0 ∧
    New acceptAll missingPortOpts =
      .ok { ccon := 1, Connected := true, Options := missingPortOpts, OpenedObjs := [] } ∧
    ¬ ∃ msg, New acceptAll missingPortOpts = .error ⟨.InvalidConfig, msg⟩ := by
  refine ⟨rfl, rfl, rfl, ?_⟩
  rintro ⟨msg, h⟩
  have h2 : New acceptAll missingPortOpts =
      .ok { ccon := 1, Connected := true, Options := missingPortOpts, OpenedObjs := [] } := rfl
  rw [h2] at h
  cases h

/-- Claim C8, amended. `New` does not inspect `Host`, `Port`, `Username` or `Zone`: with
`Type == UserDefined` it hands them to `gorods_connect_env` as they are (the port converted to a
C int, an empty password as a nil pointer) and its result is decided by the status alone: status
0 gives a `Connection` with `Connected` true and a nil error, any other status gives no
`Connection` and the Fatal error "iRods Connect Failed: " followed by the transport message. It
never returns an `InvalidConfig` error. -/
theorem New_userDefined_follows_status (t : Transport) (opts : ConnectionOptions)
    (hty : opts.Type_ = UserDefined) :
    (∀ r, t.connectEnv opts.Host (toCInt opts.Port) opts.Username opts.Zone
        (if opts.Password ≠ "" then some opts.Password else none) = r →
      (r.status = 0 →
        New t opts =
          .ok { ccon := r.ccon, Connected := true, Options := opts, OpenedObjs := [] }) ∧
      (r.status ≠ 0 →
        New t opts = .error (newError .Fatal ("iRods Connect Failed: " ++ r.errMsg)))) ∧
    (∀ msg, New t opts ≠ .error ⟨.InvalidConfig, msg⟩) := by
  constructor
  · intro r hr
    subst hr
    constructor
    · intro h0
      unfold New
      simp only [hty, if_true]
      rw [if_pos h0]
    · intro h0
      unfold New
      simp only [hty, if_true]
      rw [if_neg h0]
  · intro msg h
    unfold New at h
    simp only [hty, if_true] at h
    split_ifs at h
    all_goals simp [newError] at h

/-- Witness for the amended C8: the options of scenario 1 against a rejecting transport. -/
theorem New_userDefined_follows_status_witness :
    New rejectAll missingPortOpts =
      .error (newError .Fatal ("iRods Connect Failed: " ++ "no route")) :=
  (((New_userDefined_follows_status rejectAll missingPortOpts rfl).1
    ⟨-1, 0, "no route"⟩ rfl).2 (by decide))

/-! ## Facts about `FindRecursive` -/

/-- Induction over the objects of a tree: a property that holds of a collection whenever it
holds of its loaded children and of the objects handed back by `GetCollections()` holds of every
object. -/
theorem IRodsObj.forall_of_children (Q : IRodsObj → Prop)
    (hcol : ∀ n pa r ds cs, (∀ x ∈ ds, Q x) → (∀ obs, cs = some obs → ∀ x ∈ obs, Q x) →
      Q (.collection n pa r ds cs))
    (hother : ∀ k n pa, Q (.other k n pa)) : ∀ x, Q x := by
  intro x
  refine @IRodsObj.rec Q (fun l => ∀ y ∈ l, Q y)
    (fun o => ∀ obs, o = some obs → ∀ y ∈ obs, Q y) ?_ ?_ ?_ ?_ ?_ ?_ x
  · intro n pa r ds cs hds hcs
    exact hcol n pa r ds cs hds hcs
  · exact hother
  · intro y hy
    cases hy
  · intro hd tl hhd htl y hy
    rcases List.mem_cons.mp hy with rfl | hy
    · exact hhd
    · exact htl y hy
  · intro obs h
    cases h
  · intro val hval obs h
    cases h
    exact hval

theorem FindRecursive_of_strip (objs : IRodsObjs) (p q : String)
    (h : stripTrailingSlash p = .ok q) :
    IRodsObjs.FindRecursive objs p = findRecLoop q objs := by
  rw [IRodsObjs.FindRecursive, h]

theorem Find_of_strip (objs : IRodsObjs) (p q : String) (h : stripTrailingSlash p = .ok q) :
    IRodsObjs.Find objs p = .ok (findLoop q objs) := by
  rw [IRodsObjs.Find, h]

theorem findRecLoop_cons_match (q : String) (a : IRodsObj) (t : List IRodsObj)
    (h : directMatch q a = true) : findRecLoop q (a :: t) = .ok (some a) := by
  rw [findRecLoop, if_pos h]

theorem findRecLoop_cons_found (q : String) (a r : IRodsObj) (t : List IRodsObj)
    (h : directMatch q a = false) (hd : descend q a = .ok (some r)) :
    findRecLoop q (a :: t) = .ok (some r) := by
  rw [findRecLoop, if_neg (by simp [h]), hd]

theorem findRecLoop_cons_skip (q : String) (a : IRodsObj) (t : List IRodsObj)
    (h : directMatch q a = false) (hd : descend q a = .ok none) :
    findRecLoop q (a :: t) = findRecLoop q t := by
  rw [findRecLoop, if_neg (by simp [h]), hd]

theorem findRecLoop_cons_panic (q : String) (a : IRodsObj) (t : List IRodsObj) (e : Panic)
    (h : directMatch q a = false) (hd : descend q a = .error e) :
    findRecLoop q (a :: t) = .error e := by
  rw [findRecLoop, if_neg (by simp [h]), hd]

/-- The loop returns normally when the descent into each element does. -/
theorem findRecLoop_total_of (q : String) (l : List IRodsObj)
    (h : ∀ x ∈ l, ∃ r, descend q x = .ok r) : ∃ r, findRecLoop q l = .ok r := by
  induction l with
  | nil => exact ⟨none, by rw [findRecLoop]⟩
  | cons a t ih =>
    by_cases ha : directMatch q a = true
    · exact ⟨some a, findRecLoop_cons_match q a t ha⟩
    · have ha' : directMatch q a = false := by simpa using ha
      obtain ⟨r, hr⟩ := h a (List.mem_cons_self a t)
      cases r with
      | none =>
        rw [findRecLoop_cons_skip q a t ha' hr]
        exact ih (fun x hx => h x (List.mem_cons_of_mem a hx))
      | some r => exact ⟨some r, findRecLoop_cons_found q a r t ha' hr⟩

/-- With a path that the strip leaves alone (so a non-empty one), the descent into any object
returns normally. -/
theorem descend_total (q : String) (hq : stripTrailingSlash q = .ok q) :
    ∀ x, ∃ r, descend q x = .ok r := by
  apply IRodsObj.forall_of_children
  · intro n pa r ds cs hds hcs
    cases r with
    | false =>
      rw [descend, FindRecursive_of_strip _ q q hq]
      apply findRecLoop_total_of
      intro x hx
      exact hds x (List.mem_of_mem_filter hx)
    | true =>
      cases cs with
      | none => exact ⟨none, by rw [descend]⟩
      | some obs =>
        rw [descend, FindRecursive_of_strip _ q q hq]
        exact findRecLoop_total_of q obs (hcs obs rfl)
  · intro k n pa
    exact ⟨none, by rw [descend]⟩

/-- The loop finds something as soon as one element matches directly or has something found
below it, provided no descent panics. -/
theorem findRecLoop_found (q : String) (l : List IRodsObj)
    (htot : ∀ x ∈ l, ∃ r, descend q x = .ok r)
    (hex : ∃ x ∈ l, directMatch q x = true ∨ ∃ r, descend q x = .ok (some r)) :
    ∃ r, findRecLoop q l = .ok (some r) := by
  induction l with
  | nil =>
    obtain ⟨x, hx, _⟩ := hex
    cases hx
  | cons a t ih =>
    by_cases ha : directMatch q a = true
    · exact ⟨a, findRecLoop_cons_match q a t ha⟩
    · have ha' : directMatch q a = false := by simpa using ha
      obtain ⟨r, hr⟩ := htot a (List.mem_cons_self a t)
      cases r with
      | some r => exact ⟨r, findRecLoop_cons_found q a r t ha' hr⟩
      | none =>
        rw [findRecLoop_cons_skip q a t ha' hr]
        apply ih (fun x hx => htot x (List.mem_cons_of_mem a hx))
        obtain ⟨x, hx, hcase⟩ := hex
        rcases List.mem_cons.mp hx with hxa | hx
        · rw [hxa] at hcase
          rcases hcase with h | ⟨r, h⟩
          · exact absurd h ha
          · rw [hr] at h
            cases h
        · exact ⟨x, hx, hcase⟩

/-- Whatever the loop returns is an element that matches directly or was found by the descent
into an element. -/
theorem findRecLoop_some_cases (q : String) (l : List IRodsObj) (o : IRodsObj)
    (h : findRecLoop q l = .ok (some o)) :
    ∃ x ∈ l, (directMatch q x = true ∧ o = x) ∨ descend q x = .ok (some o) := by
  induction l with
  | nil =>
    rw [findRecLoop] at h
    cases h
  | cons a t ih =>
    by_cases ha : directMatch q a = true
    · rw [findRecLoop_cons_match q a t ha] at h
      have hao : a = o := by simpa using h
      exact ⟨a, List.mem_cons_self a t, Or.inl ⟨ha, hao.symm⟩⟩
    · have ha' : directMatch q a = false := by simpa using ha
      cases hd : descend q a with
      | error e =>
        rw [findRecLoop_cons_panic q a t e ha' hd] at h
        cases h
      | ok r =>
        cases r with
        | some r =>
          rw [findRecLoop_cons_found q a r t ha' hd] at h
          have hro : r = o := by simpa using h
          rw [hro] at hd
          exact ⟨a, List.mem_cons_self a t, Or.inr hd⟩
        | none =>
          rw [findRecLoop_cons_skip q a t ha' hd] at h
          obtain ⟨x, hx, hcase⟩ := ih h
          exact ⟨x, List.mem_cons_of_mem a hx, hcase⟩

/-- The search of an empty sequence never returns an element. -/
theorem FindRecursive_nil_ne_some (q : String) (o : IRodsObj) :
    IRodsObjs.FindRecursive [] q ≠ .ok (some o) := by
  intro h
  rw [IRodsObjs.FindRecursive] at h
  cases hs : stripTrailingSlash q with
  | error e =>
    rw [hs] at h
    cases h
  | ok q' =>
    rw [hs] at h
    simp only [findRecLoop] at h
    cases h

/-- The descent into an object that offers nothing to descend into returns no element. -/
theorem descend_nothingBelow (q : String) (s o : IRodsObj) (h : nothingBelow s = true) :
    descend q s ≠ .ok (some o) := by
  cases s with
  | other k n pa =>
    rw [descend]
    intro h'
    cases h'
  | collection n pa r ds cs =>
    cases r with
    | false =>
      simp only [nothingBelow, List.isEmpty_iff] at h
      rw [descend, h]
      exact FindRecursive_nil_ne_some q o
    | true =>
      cases cs with
      | none =>
        rw [descend]
        intro h'
        cases h'
      | some obs =>
        simp only [nothingBelow, List.isEmpty_iff] at h
        rw [descend, h]
        exact FindRecursive_nil_ne_some q o

/-- The descent into an element is the nested `FindRecursive` call on the sequence that
`searchedBelow` names, and nothing when there is none. -/
theorem descend_eq_searchedBelow (q : String) (x : IRodsObj) :
    descend q x =
      match searchedBelow x with
      | none => .ok none
      | some sub => IRodsObjs.FindRecursive sub q := by
  cases x with
  | other k n pa => rw [descend, searchedBelow]
  | collection n pa r ds cs =>
    cases r with
    | false => rw [descend, searchedBelow]
    | true =>
      cases cs with
      | none => rw [descend, searchedBelow]
      | some obs => rw [descend, searchedBelow]

/-- A step down from `c` leads into the sequence searched below `c`. -/
theorem DescentLink.mem_searchedBelow (c s : IRodsObj) (h : DescentLink c s) :
    ∃ sub, searchedBelow c = some sub ∧ s ∈ sub := by
  cases h with
  | collections n pa ds obs s hmem => exact ⟨obs, rfl, hmem⟩
  | dataObjects n pa ds cs s hmem hty =>
    refine ⟨ds.filter isCollection, rfl, ?_⟩
    exact List.mem_filter.mpr ⟨hmem, by simpa [isCollection] using hty⟩

/-- With a path that the strip leaves alone, the descent through the first link of a chain
finds something as soon as the link matches directly or has something found below it. -/
theorem descend_found_of_link (q : String) (hq : stripTrailingSlash q = .ok q)
    (c s : IRodsObj) (h : DescentLink c s)
    (hs : directMatch q s = true ∨ ∃ r, descend q s = .ok (some r)) :
    ∃ r, descend q c = .ok (some r) := by
  obtain ⟨sub, hsub, hmem⟩ := DescentLink.mem_searchedBelow c s h
  rw [descend_eq_searchedBelow, hsub]
  simp only
  rw [FindRecursive_of_strip _ q q hq]
  exact findRecLoop_found q sub (fun x _ => descend_total q hq x) ⟨s, hmem, hs⟩

/-- The descent into a collection finds an object loaded below it. -/
theorem descend_finds_loaded (q : String) (hq : stripTrailingSlash q = .ok q) (c d : IRodsObj)
    (h : LoadedUnder c d) (hd : d.GetPath = q) : ∃ r, descend q c = .ok (some r) := by
  induction h with
  | child c d hlink =>
    exact descend_found_of_link q hq c d hlink
      (Or.inl ((directMatch_iff q d).mpr (Or.inl hd)))
  | deeper c s d hlink _ ih =>
    exact descend_found_of_link q hq c s hlink (Or.inr (ih hd))

/-- With a path that the strip leaves alone, whatever the descent into an object returns has
that path as its path or its name. -/
theorem descend_result_matches (q : String) (hq : stripTrailingSlash q = .ok q) :
    ∀ x : IRodsObj, ∀ o : IRodsObj, descend q x = .ok (some o) → directMatch q o = true := by
  apply IRodsObj.forall_of_children
  · intro n pa r ds cs hds hcs o ho
    rw [descend_eq_searchedBelow] at ho
    cases r with
    | false =>
      simp only [searchedBelow] at ho
      rw [FindRecursive_of_strip _ q q hq] at ho
      obtain ⟨x, hx, hcase⟩ := findRecLoop_some_cases q _ o ho
      rcases hcase with ⟨hm, hox⟩ | hdesc
      · rw [hox]
        exact hm
      · exact hds x (List.mem_of_mem_filter hx) o hdesc
    | true =>
      cases cs with
      | none =>
        simp only [searchedBelow] at ho
        cases ho
      | some obs =>
        simp only [searchedBelow] at ho
        rw [FindRecursive_of_strip _ q q hq] at ho
        obtain ⟨x, hx, hcase⟩ := findRecLoop_some_cases q _ o ho
        rcases hcase with ⟨hm, hox⟩ | hdesc
        · rw [hox]
          exact hm
        · exact hcs obs rfl x hx o hdesc
  · intro k n pa o ho
    rw [descend] at ho
    cases ho

/-- With a path that the strip leaves alone, whatever the loop returns has that path as its path
or its name. -/
theorem findRecLoop_result_matches (q : String) (hq : stripTrailingSlash q = .ok q)
    (l : List IRodsObj) (o : IRodsObj) (h : findRecLoop q l = .ok (some o)) :
    directMatch q o = true := by
  obtain ⟨x, _, hcase⟩ := findRecLoop_some_cases q l o h
  rcases hcase with ⟨hm, hox⟩ | hdesc
  · rw [hox]
    exact hm
  · exact descend_result_matches q hq x o hdesc

/-- Claim C4, refuted as stated: the recursive collection `/tempZone/home` is cached, all of its
descendants are loaded and every sub-collection is recursive; the data object
`/tempZone/home/notes.txt` is one of its children. The recursive branch searches what
`GetCollections()` returns, here the children that are collections, so `FindRecursive` on the
path of the data object returns nil. -/
theorem FindRecursive_misses_data_object :
    homeRecNotes ∈ [homeRecNotes] ∧ homeRecNotes.GetType = CollectionType ∧
    homeRecNotes.IsRecursive = true ∧ aliceRec.IsRecursive = true ∧
    docsCol.IsRecursive = true ∧
    notesTop ∈ homeRecNotes.children ∧ notesTop.GetType = DataObjType ∧
    homeRecNotes.GetCollections = some (homeRecNotes.children.filter isCollection) ∧
    IRodsObjs.FindRecursive [homeRecNotes] notesTop.GetPath = .ok none := by
  have h1 : stripTrailingSlash "/tempZone/home/notes.txt" =
      .ok "/tempZone/home/notes.txt" := rfl
  refine ⟨by simp, rfl, rfl, rfl, rfl, by simp [homeRecNotes, IRodsObj.children], rfl, rfl, ?_⟩
  simp [homeRecNotes, aliceRec, docsCol, notesTop, IRodsObjs.FindRecursive, findRecLoop,
    descend, h1, directMatch, IRodsObj.GetPath, IRodsObj.GetName]

/-- Claim C4, amended. Let `objs` contain a collection `c`, and let `d` be reached from `c` by one
or more steps down, a step leading from a recursive collection to an object returned by its
successful `GetCollections()` call and from a non-recursive collection to one of its
`DataObjects` of kind Collection. If the path of `d` is non-empty and does not end in `/`, then
`FindRecursive` on that path returns normally with a non-nil handle, and the path or the name of
that handle is the path of `d`. -/
theorem FindRecursive_finds_loaded_descendant (objs : IRodsObjs) (c d : IRodsObj)
    (hc : c ∈ objs) (hd : LoadedUnder c d) (ch : Char)
    (hlast : d.GetPath.data.getLast? = some ch) (hch : ch ≠ '/') :
    ∃ r, IRodsObjs.FindRecursive objs d.GetPath = .ok (some r) ∧
      (r.GetPath = d.GetPath ∨ r.GetName = d.GetPath) := by
  have hq : stripTrailingSlash d.GetPath = .ok d.GetPath :=
    stripTrailingSlash_id d.GetPath ch hlast hch
  rw [FindRecursive_of_strip objs _ _ hq]
  obtain ⟨r, hr⟩ := findRecLoop_found _ objs (fun x _ => descend_total _ hq x)
    ⟨c, hc, Or.inr (descend_finds_loaded _ hq c d hd rfl)⟩
  exact ⟨r, hr, (directMatch_iff _ r).mp (findRecLoop_result_matches _ hq objs r hr)⟩

/-- Witness for the amended C4: `docsCol` lies two levels below the recursive `zoneRec`, under
the non-recursive `projectsShallow`, and is found by its path. -/
theorem FindRecursive_finds_loaded_descendant_witness :
    ∃ r, IRodsObjs.FindRecursive [zoneRec] docsCol.GetPath = .ok (some r) ∧
      (r.GetPath = docsCol.GetPath ∨ r.GetName = docsCol.GetPath) :=
  FindRecursive_finds_loaded_descendant [zoneRec] zoneRec docsCol (by simp)
    (LoadedUnder.deeper zoneRec projectsShallow docsCol
      (DescentLink.collections "tempZone" "/tempZone" [projectsShallow] [projectsShallow]
        projectsShallow (by simp))
      (LoadedUnder.child projectsShallow docsCol
        (DescentLink.dataObjects "projects" "/tempZone/projects" [docsCol, notesTop] none
          docsCol (by simp) rfl)))
    's' rfl (by decide)

/-- Claim C9 (evaluation at the failing input). `/tempZone/home` is cached and not recursive; its
child `/tempZone/home/alice` has its own child `/tempZone/home/alice/docs` loaded. The descent
through `/tempZone/home` returns `docs`, which is nested two levels below it and is not one of
its immediate children, although the doc comment of `FindRecursive` limits the search below a
collection that was not loaded recursively to the first level of sub-collections. -/
theorem nonrecursive_descent_reaches_second_level :
    homeOpened.IsRecursive = false ∧
    aliceOpened ∈ homeOpened.children ∧ docsLeaf ∈ aliceOpened.children ∧
    docsLeaf ∉ homeOpened.children ∧
    descend "/tempZone/home/alice/docs" homeOpened = .ok (some docsLeaf) ∧
    IRodsObjs.FindRecursive [homeOpened] "/tempZone/home/alice/docs" = .ok (some docsLeaf) := by
  have h1 : stripTrailingSlash "/tempZone/home/alice/docs" =
      .ok "/tempZone/home/alice/docs" := rfl
  refine ⟨rfl, by simp [homeOpened, IRodsObj.children],
    by simp [aliceOpened, IRodsObj.children],
    by simp [homeOpened, IRodsObj.children, docsLeaf, aliceOpened], ?_, ?_⟩
  · simp [homeOpened, aliceOpened, docsLeaf, IRodsObjs.FindRecursive, findRecLoop, descend, h1,
      directMatch, IRodsObj.GetPath, IRodsObj.GetName, isCollection, IRodsObj.GetType]
  · simp [homeOpened, aliceOpened, docsLeaf, IRodsObjs.FindRecursive, findRecLoop, descend, h1,
      directMatch, IRodsObj.GetPath, IRodsObj.GetName, isCollection, IRodsObj.GetType]

/-- What the descent through a non-recursive collection can return: one of its immediate children
of kind Collection, or something found by the descent into such a child; when none of these
children offers anything to descend into, it is an immediate child of kind Collection. -/
theorem nonrecursive_descent_scope (n pa : String) (ds : List IRodsObj)
    (cs : Option (List IRodsObj)) (q : String) (o : IRodsObj)
    (h : descend q (.collection n pa false ds cs) = .ok (some o)) :
    (∃ s ∈ ds, s.GetType = CollectionType ∧ (o = s ∨ ∃ q', descend q' s = .ok (some o))) ∧
    ((∀ s ∈ ds, s.GetType = CollectionType → nothingBelow s = true) →
      o ∈ ds ∧ o.GetType = CollectionType) := by
  rw [descend, IRodsObjs.FindRecursive] at h
  cases hs : stripTrailingSlash q with
  | error e =>
    rw [hs] at h
    cases h
  | ok q' =>
    rw [hs] at h
    obtain ⟨x, hx, hcase⟩ := findRecLoop_some_cases q' _ o h
    have hxds : x ∈ ds := List.mem_of_mem_filter hx
    have hxcol : x.GetType = CollectionType := by
      have := List.of_mem_filter hx
      simpa [isCollection] using this
    constructor
    · rcases hcase with ⟨_, hox⟩ | hdesc
      · exact ⟨x, hxds, hxcol, Or.inl hox⟩
      · exact ⟨x, hxds, hxcol, Or.inr ⟨q', hdesc⟩⟩
    · intro hleaf
      rcases hcase with ⟨_, hox⟩ | hdesc
      · rw [hox]
        exact ⟨hxds, hxcol⟩
      · exact absurd hdesc (descend_nothingBelow q' x o (hleaf x hxds hxcol))

/-- Claim C10, refuted as stated: the cache holds `/tempZone/home` (with its child
`/tempZone/home/docs`) and then `/tempZone/projects/docs`. `Find("docs")` returns the second
top-level element, `FindRecursive("docs")` returns the child found below the first, a
different object. -/
theorem FindRecursive_differs_from_Find :
    IRodsObjs.Find [homeWithDocs, projectDocs] "docs" = .ok (some projectDocs) ∧
    IRodsObjs.FindRecursive [homeWithDocs, projectDocs] "docs" = .ok (some homeDocs) ∧
    homeDocs ≠ projectDocs := by
  have h1 : stripTrailingSlash "docs" = .ok "docs" := rfl
  refine ⟨rfl, ?_, ?_⟩
  · simp [homeWithDocs, homeDocs, IRodsObjs.FindRecursive, findRecLoop, descend, h1,
      directMatch, IRodsObj.GetPath, IRodsObj.GetName, isCollection, IRodsObj.GetType]
  · simp [homeDocs, projectDocs]

/-- The loop passes over leading elements that neither match nor have anything found below. -/
theorem findRecLoop_append_quiet (q : String) (pre l : List IRodsObj)
    (h : ∀ y ∈ pre, directMatch q y = false ∧ descend q y = .ok none) :
    findRecLoop q (pre ++ l) = findRecLoop q l := by
  induction pre with
  | nil => rfl
  | cons a t ih =>
    obtain ⟨hm, hd⟩ := h a (List.mem_cons_self a t)
    rw [List.cons_append, findRecLoop_cons_skip q a _ hm hd]
    exact ih (fun y hy => h y (List.mem_cons_of_mem a hy))

/-- At an element that does not match and whose descent finds an object or panics, the loop
ends with the outcome of that descent. -/
theorem findRecLoop_cons_noisy (q : String) (x : IRodsObj) (l : List IRodsObj)
    (hm : directMatch q x = false) (hd : descend q x ≠ .ok none) :
    findRecLoop q (x :: l) = descend q x := by
  cases hx : descend q x with
  | error e => exact findRecLoop_cons_panic q x l e hm hx
  | ok r =>
    cases r with
    | none => exact absurd hx hd
    | some r => exact findRecLoop_cons_found q x r l hm hx

/-- The descent into an element returns nothing when the nested search below it does. -/
theorem descend_quiet_of_searchedBelow (q : String) (x : IRodsObj)
    (h : ∀ sub, searchedBelow x = some sub → IRodsObjs.FindRecursive sub q = .ok none) :
    descend q x = .ok none := by
  rw [descend_eq_searchedBelow]
  cases hs : searchedBelow x with
  | none => rfl
  | some sub => exact h sub hs

/-- The loop of `FindRecursive` returns what the loop of `Find` returns when no descent before
the first direct match finds anything. -/
theorem findRecLoop_eq_findLoop_of_quiet (q : String) (objs : List IRodsObj) (o : IRodsObj)
    (hloop : findLoop q objs = some o)
    (hquiet : ∀ x ∈ objs.takeWhile (fun x => !directMatch q x), descend q x = .ok none) :
    findRecLoop q objs = .ok (some o) := by
  induction objs with
  | nil => simp [findLoop] at hloop
  | cons a t ih =>
    by_cases ha : directMatch q a = true
    · simp only [findLoop, ha, if_true] at hloop
      rw [findRecLoop_cons_match q a t ha, hloop]
    · have ha' : directMatch q a = false := by simpa using ha
      simp only [findLoop, ha', Bool.false_eq_true, if_false] at hloop
      have hda : descend q a = .ok none := by
        apply hquiet
        simp [List.takeWhile, ha']
      rw [findRecLoop_cons_skip q a t ha' hda]
      apply ih hloop
      intro x hx
      apply hquiet
      simp only [List.takeWhile, ha', Bool.not_false]
      exact List.mem_cons_of_mem a hx

/-- The loop of `FindRecursive` does not return nil when the loop of `Find` finds an element. -/
theorem findRecLoop_ne_none_of_findLoop (q : String) (objs : List IRodsObj) (o : IRodsObj)
    (hloop : findLoop q objs = some o) : findRecLoop q objs ≠ .ok none := by
  induction objs with
  | nil => simp [findLoop] at hloop
  | cons a t ih =>
    by_cases ha : directMatch q a = true
    · rw [findRecLoop_cons_match q a t ha]
      simp
    · have ha' : directMatch q a = false := by simpa using ha
      simp only [findLoop, ha', Bool.false_eq_true, if_false] at hloop
      cases hd : descend q a with
      | error e =>
        rw [findRecLoop_cons_panic q a t e ha' hd]
        simp
      | ok r =>
        cases r with
        | some r =>
          rw [findRecLoop_cons_found q a r t ha' hd]
          simp
        | none =>
          rw [findRecLoop_cons_skip q a t ha' hd]
          exact ih hloop

/-- Claim C10, amended. Let `Find(p)` return an element `o`, let `q` be the stripped path, and
take the elements of `objs` that stand before the first direct match, in order. For each of them
`FindRecursive` searches, with `q`, the sequence named by `searchedBelow` (the result of
`GetCollections()` for a recursive collection, the children of kind Collection for a
non-recursive one). Then `FindRecursive(p)` does not return nil; it returns that same `o` when
every one of these nested searches returns nil; and otherwise its result is the outcome (an
object found, or a panic) of the first nested search that does not return nil. -/
theorem FindRecursive_agrees_with_Find (objs : IRodsObjs) (p q : String) (o : IRodsObj)
    (hfind : IRodsObjs.Find objs p = .ok (some o)) (hq : stripTrailingSlash p = .ok q) :
    IRodsObjs.FindRecursive objs p ≠ .ok none ∧
    ((∀ x ∈ objs.takeWhile (fun x => !directMatch q x),
        ∀ sub, searchedBelow x = some sub → IRodsObjs.FindRecursive sub q = .ok none) →
      IRodsObjs.FindRecursive objs p = .ok (some o)) ∧
    (∀ (pre : List IRodsObj) (x : IRodsObj) (rest sub : List IRodsObj),
      objs.takeWhile (fun x => !directMatch q x) = pre ++ x :: rest →
      (∀ y ∈ pre, ∀ s, searchedBelow y = some s → IRodsObjs.FindRecursive s q = .ok none) →
      searchedBelow x = some sub → IRodsObjs.FindRecursive sub q ≠ .ok none →
      IRodsObjs.FindRecursive objs p = IRodsObjs.FindRecursive sub q) := by
  rw [Find_of_strip objs p q hq] at hfind
  have hloop : findLoop q objs = some o := by simpa using hfind
  rw [FindRecursive_of_strip objs p q hq]
  refine ⟨findRecLoop_ne_none_of_findLoop q objs o hloop, ?_, ?_⟩
  · intro hquiet
    apply findRecLoop_eq_findLoop_of_quiet q objs o hloop
    intro x hx
    exact descend_quiet_of_searchedBelow q x (hquiet x hx)
  · intro pre x rest sub hsplit hquiet hsub hnoisy
    have hnomatch : ∀ y ∈ objs.takeWhile (fun x => !directMatch q x),
        directMatch q y = false := by
      intro y hy
      have := List.mem_takeWhile_imp hy
      simpa using this
    have hobjs : objs = pre ++ (x :: (rest ++ objs.dropWhile (fun x => !directMatch q x))) := by
      have h := List.takeWhile_append_dropWhile (fun x => !directMatch q x) objs
      rw [hsplit] at h
      exact h.symm.trans (by simp)
    have hpre : ∀ y ∈ pre, directMatch q y = false ∧ descend q y = .ok none := by
      intro y hy
      refine ⟨hnomatch y ?_, descend_quiet_of_searchedBelow q y (hquiet y hy)⟩
      rw [hsplit]
      exact List.mem_append_left _ hy
    have hxm : directMatch q x = false := by
      apply hnomatch
      rw [hsplit]
      exact List.mem_append_right _ (List.mem_cons_self x rest)
    have hdx : descend q x = IRodsObjs.FindRecursive sub q := by
      rw [descend_eq_searchedBelow, hsub]
    rw [hobjs, findRecLoop_append_quiet q pre _ hpre,
      findRecLoop_cons_noisy q x _ hxm (by rw [hdx]; exact hnoisy), hdx]

/-- Witness for the amended C10, on the cache `[/tempZone/home, /tempZone/projects/docs]` where
`/tempZone/home` is not recursive and holds `/tempZone/home/docs`. For the full path
`/tempZone/projects/docs` the search below `/tempZone/home` finds nothing and `FindRecursive`
returns the element that `Find` returns; for the name `docs` the search below `/tempZone/home`
finds `/tempZone/home/docs`, and that is the result. -/
theorem FindRecursive_agrees_with_Find_witness :
    IRodsObjs.FindRecursive [homeWithDocs, projectDocs] "/tempZone/projects/docs" =
      .ok (some projectDocs) ∧
    IRodsObjs.FindRecursive [homeWithDocs, projectDocs] "docs" =
      IRodsObjs.FindRecursive [homeDocs] "docs" ∧
    IRodsObjs.FindRecursive [homeDocs] "docs" = .ok (some homeDocs) := by
  have h1 : stripTrailingSlash "/tempZone/projects/docs" = .ok "/tempZone/projects/docs" := rfl
  have h2 : stripTrailingSlash "docs" = .ok "docs" := rfl
  have hsub : searchedBelow homeWithDocs = some [homeDocs] := rfl
  have htw1 : List.takeWhile (fun x => !directMatch "/tempZone/projects/docs" x)
      [homeWithDocs, projectDocs] = [homeWithDocs] := by
    simp [List.takeWhile, homeWithDocs, projectDocs, directMatch, IRodsObj.GetPath,
      IRodsObj.GetName]
  have htw2 : List.takeWhile (fun x => !directMatch "docs" x)
      [homeWithDocs, projectDocs] = [] ++ homeWithDocs :: [] := by
    simp [List.takeWhile, homeWithDocs, projectDocs, directMatch, IRodsObj.GetPath,
      IRodsObj.GetName]
  have hdocs : IRodsObjs.FindRecursive [homeDocs] "docs" = .ok (some homeDocs) := by
    simp [homeDocs, IRodsObjs.FindRecursive, findRecLoop, h2, directMatch, IRodsObj.GetPath,
      IRodsObj.GetName]
  refine ⟨?_, ?_, hdocs⟩
  · apply (FindRecursive_agrees_with_Find [homeWithDocs, projectDocs]
      "/tempZone/projects/docs" "/tempZone/projects/docs" projectDocs rfl rfl).2.1
    intro x hx sub hxs
    rw [htw1] at hx
    have hx' : x = homeWithDocs := by simpa using hx
    subst hx'
    rw [hsub] at hxs
    cases hxs
    simp [homeDocs, IRodsObjs.FindRecursive, findRecLoop, descend, h1, directMatch,
      IRodsObj.GetPath, IRodsObj.GetName, isCollection, IRodsObj.GetType]
  · apply (FindRecursive_agrees_with_Find [homeWithDocs, projectDocs] "docs" "docs"
      projectDocs rfl rfl).2.2 [] homeWithDocs [] [homeDocs] htw2
    · intro y hy
      cases hy
    · exact hsub
    · rw [hdocs]
      simp

/-! ## Normal return of the lookups -/

/-- On the empty sequence and a non-empty path, all three lookups report "not found". -/
theorem empty_sequence_not_found (p : String) (hp : p ≠ "") :
    IRodsObjs.Find [] p = .ok none ∧ IRodsObjs.FindRecursive [] p = .ok none ∧
    IRodsObjs.Exists [] p = .ok false := by
  obtain ⟨q, hq, _⟩ := stripTrailingSlash_ok p hp
  have hF : IRodsObjs.Find [] p = .ok none := by
    rw [Find_of_strip [] p q hq]
    rfl
  refine ⟨hF, ?_, ?_⟩
  · rw [FindRecursive_of_strip [] p q hq, findRecLoop]
  · rw [IRodsObjs.Exists, hF]

/-- The strip keeps a character other than `/` in the path, so the stripped path is again
non-empty. -/
theorem stripTrailingSlash_keeps_nonSlash (p : String) (h : ∃ c ∈ p.data, c ≠ '/') :
    ∃ q, stripTrailingSlash p = .ok q ∧ ∃ c ∈ q.data, c ≠ '/' := by
  obtain ⟨c, hc, hne⟩ := h
  rcases List.eq_nil_or_concat p.data with hnil | ⟨l, b, hl⟩
  · rw [hnil] at hc
    cases hc
  · rw [List.concat_eq_append] at hl
    by_cases hb : b = '/'
    · refine ⟨⟨l⟩, by simp [stripTrailingSlash, hl, hb], c, ?_, hne⟩
      rw [hl] at hc
      rcases List.mem_append.mp hc with hcl | hcb
      · exact hcl
      · have hcb' : c = b := by simpa using hcb
        exact absurd (hcb'.trans hb) hne
    · exact ⟨p, by simp [stripTrailingSlash, hl, hb], c, hc, hne⟩

/-- With a path that holds a character other than `/`, the descent into any object returns
normally at every depth. -/
theorem descend_total_of_nonSlash :
    ∀ x : IRodsObj, ∀ q : String, (∃ c ∈ q.data, c ≠ '/') → ∃ r, descend q x = .ok r := by
  apply IRodsObj.forall_of_children
  · intro n pa r ds cs hds hcs q hq
    obtain ⟨q', hq', hns⟩ := stripTrailingSlash_keeps_nonSlash q hq
    cases r with
    | false =>
      rw [descend, FindRecursive_of_strip _ q q' hq']
      apply findRecLoop_total_of
      intro x hx
      exact hds x (List.mem_of_mem_filter hx) q' hns
    | true =>
      cases cs with
      | none => exact ⟨none, by rw [descend]⟩
      | some obs =>
        rw [descend, FindRecursive_of_strip _ q q' hq']
        exact findRecLoop_total_of q' obs (fun x hx => hcs obs rfl x hx q' hns)
  · intro k n pa q _
    exact ⟨none, by rw [descend]⟩

/-- The method `FindRecursive` returns normally (it does not panic) on every sequence whenever
the path holds a character other than `/`. -/
theorem FindRecursive_total_of_nonSlash (objs : IRodsObjs) (p : String)
    (h : ∃ c ∈ p.data, c ≠ '/') : ∃ r, IRodsObjs.FindRecursive objs p = .ok r := by
  obtain ⟨q, hq, hns⟩ := stripTrailingSlash_keeps_nonSlash p h
  rw [FindRecursive_of_strip objs p q hq]
  exact findRecLoop_total_of q objs (fun x _ => descend_total_of_nonSlash x q hns)

end GoRODS
